import Mathlib

/-!
Verification of the stress-ng syncload stressor (src/stress-syncload.c).

The C source is shallowly embedded: C doubles become rationals, the byte
returned by the fast random source stress_mwc8 becomes an explicit Nat
argument (quantifying over all 256 possible bytes covers every possible
random state), and the per-worker control loop becomes a fold over an
explicit trace of per-cycle environments (random bytes, clock readings and
keep-running flags observed during that cycle).
-/

/-- STRESS_SYNCLOAD_MS_DEFAULT from stress-syncload.c line 20: 125 milliseconds. -/
def STRESS_SYNCLOAD_MS_DEFAULT : Nat := 125

/-- STRESS_SYNCLOAD_MS_MIN from stress-syncload.c line 21. -/
def STRESS_SYNCLOAD_MS_MIN : Nat := 1

/-- STRESS_SYNCLOAD_MS_MAX from stress-syncload.c line 22. -/
def STRESS_SYNCLOAD_MS_MAX : Nat := 10000

/-- The selector computed by stress_syncload_jitter from the byte returned by
stress_mwc8: the C expression is (stress_mwc8() >> 3) & 2. -/
def jitterSelector (r : Nat) : Nat := (r >>> 3) &&& 2

/-- stress_syncload_jitter (stress-syncload.c lines 204-213), with the byte
from stress_mwc8 passed explicitly as r.  The C switch has case 0 returning
sec / 10, case 1 returning -sec / 10, and falls through to return 0.0. -/
def stress_syncload_jitter (r : Nat) (sec : ℚ) : ℚ :=
  match jitterSelector r with
  | 0 => sec / 10
  | 1 => -sec / 10
  | _ => 0

lemma jitterSelector_ne_one (r : Nat) : jitterSelector r ≠ 1 := by
  intro h
  have h0 := congrArg (fun m => Nat.testBit m 0) h
  simp [jitterSelector, Nat.testBit_and] at h0

lemma jitterSelector_eq_zero_or_two (r : Nat) :
    jitterSelector r = 0 ∨ jitterSelector r = 2 := by
  have hle : jitterSelector r ≤ 2 := Nat.and_le_right
  have hne := jitterSelector_ne_one r
  omega

lemma stress_syncload_jitter_eq (r : Nat) (sec : ℚ) :
    stress_syncload_jitter r sec = sec / 10 ∨ stress_syncload_jitter r sec = 0 := by
  rcases jitterSelector_eq_zero_or_two r with h | h <;>
    simp [stress_syncload_jitter, h]

lemma stress_syncload_jitter_nonneg (r : Nat) (sec : ℚ) (h : 0 ≤ sec) :
    0 ≤ stress_syncload_jitter r sec := by
  rcases stress_syncload_jitter_eq r sec with he | he <;> rw [he] <;> positivity

lemma stress_syncload_jitter_le (r : Nat) (sec : ℚ) (h : 0 ≤ sec) :
    stress_syncload_jitter r sec ≤ sec / 10 := by
  rcases stress_syncload_jitter_eq r sec with he | he <;> rw [he] <;> positivity

/-- Claim C1 (status: code_bug).  The selector (r >>> 3) &&& 2 is always even,
so the switch case 1 in stress_syncload_jitter is unreachable: for every
possible byte r from stress_mwc8 and every positive duration s, the jitter is
never -s/10; it is always either +s/10 or 0.  This contradicts the function
comment in the source, which documents the jitter as plus or minus 10
percent, and the spec, which documents three outcomes. -/
theorem stress_syncload_jitter_never_negative (s : ℚ) (r : Nat) (hs : 0 < s) :
    jitterSelector r ≠ 1 ∧
    stress_syncload_jitter r s ≠ -(s / 10) ∧
    (stress_syncload_jitter r s = s / 10 ∨ stress_syncload_jitter r s = 0) := by
  refine ⟨jitterSelector_ne_one r, ?_, stress_syncload_jitter_eq r s⟩
  rcases stress_syncload_jitter_eq r s with he | he <;> rw [he] <;> intro hc
  · have : s = 0 := by linarith [neg_div 10 s]
    exact absurd this (ne_of_gt hs)
  · have : s / 10 = 0 := by linarith
    have : s = 0 := by
      have := div_eq_zero_iff.mp this
      rcases this with h1 | h1
      · exact h1
      · norm_num at h1
    exact absurd this (ne_of_gt hs)

/-- Witness for stress_syncload_jitter_never_negative at s = 1, r = 8. -/
theorem stress_syncload_jitter_never_negative_witness :
    (0 : ℚ) < 1 ∧
    (jitterSelector 8 ≠ 1 ∧
     stress_syncload_jitter 8 1 ≠ -((1 : ℚ) / 10) ∧
     (stress_syncload_jitter 8 1 = (1 : ℚ) / 10 ∨ stress_syncload_jitter 8 1 = 0)) :=
  ⟨by norm_num, stress_syncload_jitter_never_negative 1 8 (by norm_num)⟩

/-- Claim C2 (status: confirmed).  For every s > 0 and every byte r from the
random source, the jitter lies in the closed set containing -s/10, 0 and
+s/10, and its magnitude never exceeds s/10. -/
theorem stress_syncload_jitter_in_range (s : ℚ) (r : Nat) (hs : 0 < s) :
    (stress_syncload_jitter r s = -(s / 10) ∨
     stress_syncload_jitter r s = 0 ∨
     stress_syncload_jitter r s = s / 10) ∧
    |stress_syncload_jitter r s| ≤ s / 10 := by
  have h0 : (0 : ℚ) ≤ s := le_of_lt hs
  constructor
  · rcases stress_syncload_jitter_eq r s with he | he <;> rw [he]
    · right; right; rfl
    · right; left; rfl
  · rcases stress_syncload_jitter_eq r s with he | he <;> rw [he]
    · rw [abs_of_nonneg (by positivity)]
    · rw [abs_zero]; positivity

/-- Witness for stress_syncload_jitter_in_range at s = 1, r = 0. -/
theorem stress_syncload_jitter_in_range_witness :
    (0 : ℚ) < 1 ∧
    ((stress_syncload_jitter 0 1 = -((1 : ℚ) / 10) ∨
      stress_syncload_jitter 0 1 = 0 ∨
      stress_syncload_jitter 0 1 = (1 : ℚ) / 10) ∧
     |stress_syncload_jitter 0 1| ≤ (1 : ℚ) / 10) :=
  ⟨by norm_num, stress_syncload_jitter_in_range 1 0 (by norm_num)⟩

/-- Claim C7, counterexample (status: corrected).  The default sleep duration
is computed with unsigned integer division: STRESS_SYNCLOAD_MS_DEFAULT / 2 is
62 milliseconds, not 62.5, and the converted nominal sleep duration in
seconds is not 0.0625. -/
theorem syncload_mssleep_default_not_62p5 :
    STRESS_SYNCLOAD_MS_DEFAULT / 2 = 62 ∧
    ((STRESS_SYNCLOAD_MS_DEFAULT / 2 : Nat) : ℚ) / 1000 ≠ (625 : ℚ) / 10000 := by
  constructor
  · rfl
  · norm_num [STRESS_SYNCLOAD_MS_DEFAULT]

/-- Claim C7, amended (status: corrected).  With no configuration supplied the
default busy duration is 125 ms and the default sleep duration is the integer
half of that, 62 ms, so the converted nominal durations are 0.125 s and
0.062 s. -/
theorem stress_syncload_default_durations :
    STRESS_SYNCLOAD_MS_DEFAULT = 125 ∧
    STRESS_SYNCLOAD_MS_DEFAULT / 2 = 62 ∧
    ((STRESS_SYNCLOAD_MS_DEFAULT : Nat) : ℚ) / 1000 = (125 : ℚ) / 1000 ∧
    ((STRESS_SYNCLOAD_MS_DEFAULT / 2 : Nat) : ℚ) / 1000 = (62 : ℚ) / 1000 := by
  refine ⟨rfl, rfl, ?_, ?_⟩ <;> norm_num [STRESS_SYNCLOAD_MS_DEFAULT]

/-- One busy-wait primitive from the fixed registry in stress-syncload.c.
Each constructor names one of the functions stored in stress_syncload_ops;
the primitives themselves have no effect on the state modelled here. -/
inductive SyncloadOp where
  | opNone
  | opNop
  | opPause
  | opYield
  | opSchedYield
  | opRdrand
  | opMfence
  | opLoop
deriving DecidableEq, Repr

/-- Build-time platform capabilities that decide which conditionally compiled
entries of stress_syncload_ops are present. -/
structure Platform where
  hasAsmPause : Bool
  hasAsmYield : Bool
  isX86_64 : Bool
deriving DecidableEq, Repr

/-- stress_syncload_ops (stress-syncload.c lines 129-144): the fixed, ordered
registry of busy primitives, with the conditionally compiled entries governed
by the platform capabilities. -/
def stress_syncload_ops (p : Platform) : List SyncloadOp :=
  [SyncloadOp.opNone, SyncloadOp.opNop]
    ++ (if p.hasAsmPause then [SyncloadOp.opPause] else [])
    ++ (if p.hasAsmYield then [SyncloadOp.opYield] else [])
    ++ [SyncloadOp.opSchedYield]
    ++ (if p.isX86_64 then [SyncloadOp.opRdrand] else [])
    ++ [SyncloadOp.opMfence, SyncloadOp.opLoop]

/-- The cursor update in stress-syncload.c lines 246-248: delay_type is
incremented and reset to 0 once it reaches the registry length k. -/
def advance_delay_type (k d : Nat) : Nat :=
  if d + 1 ≥ k then 0 else d + 1

/-- The external observations one iteration of the do-while loop in
stress_syncload makes: the two bytes drawn from stress_mwc8 for the busy and
sleep jitter, the keep_stressing_flag value checked after the busy phase, the
stress_time_now reading at the sleep decision, and the keep_stressing value
that closes the do-while. -/
structure CycleEnv where
  rbusy : Nat
  rsleep : Nat
  keepFlag : Bool
  nowSleep : ℚ
  keepEnd : Bool
deriving Repr

/-- The mutable locals of stress_syncload threaded through the loop: the
timeout accumulator, the registry cursor delay_type, and the bogo-op counter
maintained by inc_counter. -/
structure SyncState where
  timeout : ℚ
  delay_type : Nat
  counter : Nat
deriving DecidableEq, Repr

/-- What one iteration of the do-while body did: the state it left behind,
the registry index it read, the primitive it fetched there, the nanosleep it
issued (none when the sleep was skipped or the loop broke early), and whether
it exited via break at the keep_stressing_flag check. -/
structure CycleResult where
  state : SyncState
  opIdx : Nat
  opUsed : SyncloadOp
  sleepNs : Option Nat
  broke : Bool
deriving Repr

/-- A default CycleResult used only as the fallback element for list
indexing. -/
def dummyCycleResult : CycleResult :=
  { state := { timeout := 0, delay_type := 0, counter := 0 },
    opIdx := 0, opUsed := SyncloadOp.opNone, sleepNs := none, broke := true }

/-- One iteration of the do-while body of stress_syncload (stress-syncload.c
lines 243-261) over the environment e: fetch the primitive at delay_type,
advance the cursor with wrap-around, add the jittered busy increment to
timeout (the busy spin itself does not change any modelled state), break if
keep_stressing_flag is clear, otherwise add the jittered sleep increment,
sleep for the nominal mssleep converted to nanoseconds exactly when the
current time is still below the new timeout, and increment the counter. -/
def syncloadCycle (ops : List SyncloadOp) (mssleep : Nat) (b sl : ℚ)
    (e : CycleEnv) (s : SyncState) : CycleResult :=
  let op := ops.getD s.delay_type SyncloadOp.opNone
  let d := advance_delay_type ops.length s.delay_type
  let t1 := s.timeout + b + stress_syncload_jitter e.rbusy b
  if e.keepFlag then
    let t2 := t1 + sl + stress_syncload_jitter e.rsleep sl
    { state := { timeout := t2, delay_type := d, counter := s.counter + 1 },
      opIdx := s.delay_type, opUsed := op,
      sleepNs := if e.nowSleep < t2 then some (mssleep * 1000000) else none,
      broke := false }
  else
    { state := { timeout := t1, delay_type := d, counter := s.counter },
      opIdx := s.delay_type, opUsed := op, sleepNs := none, broke := true }

/-- The do-while loop of stress_syncload over an explicit trace of per-cycle
environments: the loop stops when the body breaks, when keep_stressing goes
false, or when the observed trace ends.  Returns the final state together
with the list of per-cycle results. -/
def syncloadRun (ops : List SyncloadOp) (mssleep : Nat) (b sl : ℚ) :
    List CycleEnv → SyncState → SyncState × List CycleResult
  | [], s => (s, [])
  | e :: rest, s =>
    let r := syncloadCycle ops mssleep b sl e s
    if r.broke ∨ e.keepEnd = false then (r.state, [r])
    else
      let q := syncloadRun ops mssleep b sl rest r.state
      (q.1, r :: q.2)

/-- stress_syncload (stress-syncload.c lines 219-266), from the point where
the worker has obtained its reference time T0 from stress_syncload_gettime:
the millisecond settings default to STRESS_SYNCLOAD_MS_DEFAULT and its
integer half and are overridden when configured, they are converted once to
seconds, and the do-while loop runs from timeout = T0, delay_type = 0 and a
zero counter. -/
def stress_syncload (p : Platform) (cfg_msbusy cfg_mssleep : Option Nat)
    (T0 : ℚ) (envs : List CycleEnv) : SyncState × List CycleResult :=
  let msbusy := cfg_msbusy.getD STRESS_SYNCLOAD_MS_DEFAULT
  let mssleep := cfg_mssleep.getD (STRESS_SYNCLOAD_MS_DEFAULT / 2)
  syncloadRun (stress_syncload_ops p) mssleep
    ((msbusy : ℚ) / 1000) ((mssleep : ℚ) / 1000) envs
    { timeout := T0, delay_type := 0, counter := 0 }

/-- stress_syncload_gettime (stress-syncload.c lines 171-199), with the
shared-memory reads and the keep_stressing predicate abstracted as the
sequences obs and keep indexed by the iteration number, and the do-while
bounded by an explicit fuel.  The returned pair records, as ghost
instrumentation, the index of the observation that was returned together
with its value; the C function returns only the value. -/
def stress_syncload_gettime (obs : Nat → ℚ) (keep : Nat → Bool) :
    Nat → Nat → Option (Nat × ℚ)
  | _, 0 => none
  | i, fuel + 1 =>
    let t := obs i
    if t ≤ 0 ∧ keep i = true then stress_syncload_gettime obs keep (i + 1) fuel
    else some (i, t)

lemma syncloadCycle_keepFlag_true (ops : List SyncloadOp) (mssleep : Nat)
    (b sl : ℚ) (e : CycleEnv) (s : SyncState) (h : e.keepFlag = true) :
    syncloadCycle ops mssleep b sl e s =
      { state := { timeout := s.timeout + b + stress_syncload_jitter e.rbusy b
                     + sl + stress_syncload_jitter e.rsleep sl,
                   delay_type := advance_delay_type ops.length s.delay_type,
                   counter := s.counter + 1 },
        opIdx := s.delay_type,
        opUsed := ops.getD s.delay_type SyncloadOp.opNone,
        sleepNs := if e.nowSleep < s.timeout + b + stress_syncload_jitter e.rbusy b
                        + sl + stress_syncload_jitter e.rsleep sl
                   then some (mssleep * 1000000) else none,
        broke := false } := by
  simp [syncloadCycle, h]

lemma syncloadCycle_keepFlag_false (ops : List SyncloadOp) (mssleep : Nat)
    (b sl : ℚ) (e : CycleEnv) (s : SyncState) (h : e.keepFlag = false) :
    syncloadCycle ops mssleep b sl e s =
      { state := { timeout := s.timeout + b + stress_syncload_jitter e.rbusy b,
                   delay_type := advance_delay_type ops.length s.delay_type,
                   counter := s.counter },
        opIdx := s.delay_type,
        opUsed := ops.getD s.delay_type SyncloadOp.opNone,
        sleepNs := none,
        broke := true } := by
  simp [syncloadCycle, h]

/-- Claim C4 (status: confirmed).  In a sleep phase the engine issues a single
nanosleep for exactly the nominal sleep duration converted to nanoseconds,
mssleep * 1000000, precisely when the current time is still strictly below
the new jittered timeout; otherwise the sleep is skipped.  The jittered
timeout decides only whether the sleep happens, never its length. -/
theorem stress_syncload_sleep_decision (ops : List SyncloadOp) (mssleep : Nat)
    (b sl : ℚ) (e : CycleEnv) (s : SyncState) (h : e.keepFlag = true) :
    ((syncloadCycle ops mssleep b sl e s).sleepNs = some (mssleep * 1000000) ↔
       e.nowSleep < s.timeout + b + stress_syncload_jitter e.rbusy b
         + sl + stress_syncload_jitter e.rsleep sl) ∧
    ((syncloadCycle ops mssleep b sl e s).sleepNs = none ↔
       ¬ e.nowSleep < s.timeout + b + stress_syncload_jitter e.rbusy b
         + sl + stress_syncload_jitter e.rsleep sl) := by
  rw [syncloadCycle_keepFlag_true ops mssleep b sl e s h]
  by_cases hlt : e.nowSleep < s.timeout + b + stress_syncload_jitter e.rbusy b
      + sl + stress_syncload_jitter e.rsleep sl <;> simp [hlt]

/-- Witness for stress_syncload_sleep_decision on a concrete cycle. -/
theorem stress_syncload_sleep_decision_witness :
    ((syncloadCycle [] 50 (1/10) (1/20)
        { rbusy := 0, rsleep := 0, keepFlag := true, nowSleep := 0, keepEnd := true }
        { timeout := 0, delay_type := 0, counter := 0 }).sleepNs = some (50 * 1000000) ↔
       (0 : ℚ) < 0 + 1/10 + stress_syncload_jitter 0 (1/10)
         + 1/20 + stress_syncload_jitter 0 (1/20)) ∧
    ((syncloadCycle [] 50 (1/10) (1/20)
        { rbusy := 0, rsleep := 0, keepFlag := true, nowSleep := 0, keepEnd := true }
        { timeout := 0, delay_type := 0, counter := 0 }).sleepNs = none ↔
       ¬ (0 : ℚ) < 0 + 1/10 + stress_syncload_jitter 0 (1/10)
         + 1/20 + stress_syncload_jitter 0 (1/20)) :=
  stress_syncload_sleep_decision [] 50 (1/10) (1/20)
    { rbusy := 0, rsleep := 0, keepFlag := true, nowSleep := 0, keepEnd := true }
    { timeout := 0, delay_type := 0, counter := 0 } rfl

/-- Claim C5 (status: confirmed).  When the stop condition is observed at the
keep_stressing_flag check after a busy phase, the body breaks out of the loop
immediately: no sleep is issued, the counter is not incremented for that
partial cycle and the whole run ends with that cycle; whereas a cycle whose
stop check passes increments the counter exactly once. -/
theorem stress_syncload_partial_cycle_exit (ops : List SyncloadOp)
    (mssleep : Nat) (b sl : ℚ) (e f : CycleEnv) (rest : List CycleEnv)
    (s : SyncState) (h : e.keepFlag = false) (hf : f.keepFlag = true) :
    (syncloadCycle ops mssleep b sl e s).broke = true ∧
    (syncloadCycle ops mssleep b sl e s).sleepNs = none ∧
    (syncloadCycle ops mssleep b sl e s).state.counter = s.counter ∧
    syncloadRun ops mssleep b sl (e :: rest) s =
      ((syncloadCycle ops mssleep b sl e s).state,
       [syncloadCycle ops mssleep b sl e s]) ∧
    (syncloadCycle ops mssleep b sl f s).state.counter = s.counter + 1 := by
  refine ⟨?_, ?_, ?_, ?_, ?_⟩
  · rw [syncloadCycle_keepFlag_false ops mssleep b sl e s h]
  · rw [syncloadCycle_keepFlag_false ops mssleep b sl e s h]
  · rw [syncloadCycle_keepFlag_false ops mssleep b sl e s h]
  · have hb : (syncloadCycle ops mssleep b sl e s).broke = true := by
      rw [syncloadCycle_keepFlag_false ops mssleep b sl e s h]
    simp [syncloadRun, hb]
  · rw [syncloadCycle_keepFlag_true ops mssleep b sl f s hf]

/-- Witness for stress_syncload_partial_cycle_exit on a concrete cycle. -/
theorem stress_syncload_partial_cycle_exit_witness :
    (syncloadCycle [] 50 (1/10) (1/20)
        { rbusy := 0, rsleep := 0, keepFlag := false, nowSleep := 0, keepEnd := true }
        { timeout := 0, delay_type := 0, counter := 0 }).broke = true ∧
    (syncloadCycle [] 50 (1/10) (1/20)
        { rbusy := 0, rsleep := 0, keepFlag := false, nowSleep := 0, keepEnd := true }
        { timeout := 0, delay_type := 0, counter := 0 }).sleepNs = none ∧
    (syncloadCycle [] 50 (1/10) (1/20)
        { rbusy := 0, rsleep := 0, keepFlag := false, nowSleep := 0, keepEnd := true }
        { timeout := 0, delay_type := 0, counter := 0 }).state.counter = 0 ∧
    syncloadRun [] 50 (1/10) (1/20)
        [{ rbusy := 0, rsleep := 0, keepFlag := false, nowSleep := 0, keepEnd := true }]
        { timeout := 0, delay_type := 0, counter := 0 } =
      ((syncloadCycle [] 50 (1/10) (1/20)
          { rbusy := 0, rsleep := 0, keepFlag := false, nowSleep := 0, keepEnd := true }
          { timeout := 0, delay_type := 0, counter := 0 }).state,
       [syncloadCycle [] 50 (1/10) (1/20)
          { rbusy := 0, rsleep := 0, keepFlag := false, nowSleep := 0, keepEnd := true }
          { timeout := 0, delay_type := 0, counter := 0 }]) ∧
    (syncloadCycle [] 50 (1/10) (1/20)
        { rbusy := 0, rsleep := 0, keepFlag := true, nowSleep := 0, keepEnd := true }
        { timeout := 0, delay_type := 0, counter := 0 }).state.counter = 0 + 1 :=
  stress_syncload_partial_cycle_exit [] 50 (1/10) (1/20)
    { rbusy := 0, rsleep := 0, keepFlag := false, nowSleep := 0, keepEnd := true }
    { rbusy := 0, rsleep := 0, keepFlag := true, nowSleep := 0, keepEnd := true }
    [] { timeout := 0, delay_type := 0, counter := 0 } rfl rfl

lemma syncloadRun_cons_continue (ops : List SyncloadOp) (mssleep : Nat)
    (b sl : ℚ) (e : CycleEnv) (rest : List CycleEnv) (s : SyncState)
    (hbroke : (syncloadCycle ops mssleep b sl e s).broke = false)
    (hke : e.keepEnd = true) :
    syncloadRun ops mssleep b sl (e :: rest) s =
      ((syncloadRun ops mssleep b sl rest (syncloadCycle ops mssleep b sl e s).state).1,
       syncloadCycle ops mssleep b sl e s ::
         (syncloadRun ops mssleep b sl rest (syncloadCycle ops mssleep b sl e s).state).2) := by
  simp [syncloadRun, hbroke, hke]

lemma syncloadRun_cons_stop (ops : List SyncloadOp) (mssleep : Nat)
    (b sl : ℚ) (e : CycleEnv) (rest : List CycleEnv) (s : SyncState)
    (h : (syncloadCycle ops mssleep b sl e s).broke = true ∨ e.keepEnd = false) :
    syncloadRun ops mssleep b sl (e :: rest) s =
      ((syncloadCycle ops mssleep b sl e s).state,
       [syncloadCycle ops mssleep b sl e s]) := by
  rcases h with h | h <;> simp [syncloadRun, h]

lemma stress_syncload_eq (p : Platform) (msbusy mssleep : Nat) (T0 : ℚ)
    (envs : List CycleEnv) :
    stress_syncload p (some msbusy) (some mssleep) T0 envs =
      syncloadRun (stress_syncload_ops p) mssleep
        ((msbusy : ℚ) / 1000) ((mssleep : ℚ) / 1000) envs
        { timeout := T0, delay_type := 0, counter := 0 } := rfl

lemma syncloadRun_complete (ops : List SyncloadOp) (mssleep : Nat) (b sl : ℚ) :
    ∀ (envs : List CycleEnv) (s : SyncState),
      (∀ e ∈ envs, e.keepFlag = true) →
      (∀ e ∈ envs.dropLast, e.keepEnd = true) →
      (syncloadRun ops mssleep b sl envs s).1.counter = s.counter + envs.length ∧
      (syncloadRun ops mssleep b sl envs s).1.timeout =
        s.timeout + (envs.map (fun e =>
          b + stress_syncload_jitter e.rbusy b +
          (sl + stress_syncload_jitter e.rsleep sl))).sum ∧
      (syncloadRun ops mssleep b sl envs s).2.length = envs.length := by
  intro envs
  induction envs with
  | nil => intro s _ _; simp [syncloadRun]
  | cons e rest ih =>
    intro s hflag hlast
    have he : e.keepFlag = true := hflag e (List.mem_cons_self e rest)
    have hcy := syncloadCycle_keepFlag_true ops mssleep b sl e s he
    have hbroke : (syncloadCycle ops mssleep b sl e s).broke = false := by
      rw [hcy]
    rcases rest with _ | ⟨f, rest2⟩
    · by_cases hk : e.keepEnd = true
      · rw [syncloadRun_cons_continue ops mssleep b sl e [] s hbroke hk]
        simp [syncloadRun, hcy]
        ring
      · rw [syncloadRun_cons_stop ops mssleep b sl e [] s
            (Or.inr (by simpa using hk))]
        simp [hcy]
        ring
    · have hke : e.keepEnd = true := by
        apply hlast e
        simp [List.dropLast]
      have hflag2 : ∀ x ∈ f :: rest2, x.keepFlag = true :=
        fun x hx => hflag x (List.mem_cons_of_mem e hx)
      have hlast2 : ∀ x ∈ (f :: rest2).dropLast, x.keepEnd = true := by
        intro x hx
        apply hlast x
        simp [List.dropLast] at hx ⊢
        exact Or.inr hx
      obtain ⟨ih1, ih2, ih3⟩ :=
        ih (syncloadCycle ops mssleep b sl e s).state hflag2 hlast2
      rw [syncloadRun_cons_continue ops mssleep b sl e (f :: rest2) s hbroke hke]
      refine ⟨?_, ?_, ?_⟩
      · rw [ih1, hcy]
        simp
        omega
      · rw [ih2, hcy]
        simp [List.map_cons, List.sum_cons]
        ring
      · simp [ih3]

/-- Claim C3 (status: confirmed).  The timeout accumulator is seeded once
from the shared reference time T0 and thereafter only advanced additively:
after n completed busy plus sleep cycles it equals T0 plus the sum of the n
jittered busy increments and the n jittered sleep increments, hence lies
between T0 plus 0.9 times n times (b + s) and T0 plus 1.1 times n times
(b + s), and the counter reads exactly n. -/
theorem stress_syncload_timeout_anchored (p : Platform) (msbusy mssleep : Nat)
    (T0 : ℚ) (envs : List CycleEnv)
    (hflag : ∀ e ∈ envs, e.keepFlag = true)
    (hlast : ∀ e ∈ envs.dropLast, e.keepEnd = true) :
    (stress_syncload p (some msbusy) (some mssleep) T0 envs).1.counter = envs.length ∧
    (stress_syncload p (some msbusy) (some mssleep) T0 envs).1.timeout =
      T0 + (envs.map (fun e =>
        (msbusy : ℚ) / 1000 + stress_syncload_jitter e.rbusy ((msbusy : ℚ) / 1000) +
        ((mssleep : ℚ) / 1000 + stress_syncload_jitter e.rsleep ((mssleep : ℚ) / 1000)))).sum ∧
    T0 + (9/10 : ℚ) * envs.length * ((msbusy : ℚ) / 1000 + (mssleep : ℚ) / 1000)
      ≤ (stress_syncload p (some msbusy) (some mssleep) T0 envs).1.timeout ∧
    (stress_syncload p (some msbusy) (some mssleep) T0 envs).1.timeout
      ≤ T0 + (11/10 : ℚ) * envs.length * ((msbusy : ℚ) / 1000 + (mssleep : ℚ) / 1000) := by
  have hb0 : (0 : ℚ) ≤ (msbusy : ℚ) / 1000 := by positivity
  have hsl0 : (0 : ℚ) ≤ (mssleep : ℚ) / 1000 := by positivity
  obtain ⟨h1, h2, _⟩ :=
    syncloadRun_complete (stress_syncload_ops p) mssleep
      ((msbusy : ℚ) / 1000) ((mssleep : ℚ) / 1000) envs
      { timeout := T0, delay_type := 0, counter := 0 } hflag hlast
  rw [stress_syncload_eq]
  refine ⟨by simpa using h1, by simpa using h2, ?_, ?_⟩
  · have hlow := List.card_nsmul_le_sum
      (envs.map (fun e =>
        (msbusy : ℚ) / 1000 + stress_syncload_jitter e.rbusy ((msbusy : ℚ) / 1000) +
        ((mssleep : ℚ) / 1000 + stress_syncload_jitter e.rsleep ((mssleep : ℚ) / 1000))))
      ((9/10 : ℚ) * ((msbusy : ℚ) / 1000 + (mssleep : ℚ) / 1000)) ?_
    · rw [List.length_map, nsmul_eq_mul] at hlow
      rw [h2]
      simp only []
      nlinarith [hlow]
    · intro x hx
      obtain ⟨e, _, rfl⟩ := List.mem_map.mp hx
      have j1 := stress_syncload_jitter_nonneg e.rbusy ((msbusy : ℚ) / 1000) hb0
      have j2 := stress_syncload_jitter_nonneg e.rsleep ((mssleep : ℚ) / 1000) hsl0
      linarith
  · have hhigh := List.sum_le_card_nsmul
      (envs.map (fun e =>
        (msbusy : ℚ) / 1000 + stress_syncload_jitter e.rbusy ((msbusy : ℚ) / 1000) +
        ((mssleep : ℚ) / 1000 + stress_syncload_jitter e.rsleep ((mssleep : ℚ) / 1000))))
      ((11/10 : ℚ) * ((msbusy : ℚ) / 1000 + (mssleep : ℚ) / 1000)) ?_
    · rw [List.length_map, nsmul_eq_mul] at hhigh
      rw [h2]
      simp only []
      nlinarith [hhigh]
    · intro x hx
      obtain ⟨e, _, rfl⟩ := List.mem_map.mp hx
      have j1 := stress_syncload_jitter_le e.rbusy ((msbusy : ℚ) / 1000) hb0
      have j2 := stress_syncload_jitter_le e.rsleep ((mssleep : ℚ) / 1000) hsl0
      linarith

/-- A build configuration with every conditional registry entry disabled:
the registry then has the five unconditional entries. -/
def platformBase : Platform :=
  { hasAsmPause := false, hasAsmYield := false, isX86_64 := false }

/-- A cycle environment whose random bytes select zero jitter (byte 16 gives
selector 2) and whose stop checks all pass. -/
def envSimple : CycleEnv :=
  { rbusy := 16, rsleep := 16, keepFlag := true, nowSleep := 0, keepEnd := true }

/-- Three completed cycles with the stop request arriving exactly at the
do-while check of the third cycle. -/
def envsThree : List CycleEnv :=
  [envSimple, envSimple,
   { rbusy := 16, rsleep := 16, keepFlag := true, nowSleep := 0, keepEnd := false }]

/-- Witness for stress_syncload_timeout_anchored: busy 100 ms, sleep 50 ms,
reference time 0, three completed cycles with zero jitter draws. -/
theorem stress_syncload_timeout_anchored_witness :
    (stress_syncload platformBase (some 100) (some 50) 0 envsThree).1.counter = 3 ∧
    (stress_syncload platformBase (some 100) (some 50) 0 envsThree).1.timeout = 9/20 := by
  obtain ⟨h1, h2, _, _⟩ :=
    stress_syncload_timeout_anchored platformBase 100 50 0 envsThree
      (by decide) (by decide)
  have hj : ∀ x : ℚ, stress_syncload_jitter 16 x = 0 := fun _ => rfl
  refine ⟨?_, ?_⟩
  · rw [h1]
    rfl
  · rw [h2]
    simp [envsThree, envSimple, hj]
    norm_num

lemma advance_delay_type_lt (k d : Nat) (hk : 0 < k) :
    advance_delay_type k d < k := by
  unfold advance_delay_type
  split <;> omega

lemma advance_delay_type_eq_mod (k d : Nat) (hd : d < k) :
    advance_delay_type k d = (d + 1) % k := by
  unfold advance_delay_type
  split
  · have hdk : d + 1 = k := by omega
    rw [hdk, Nat.mod_self]
  · rw [Nat.mod_eq_of_lt (by omega)]

lemma stress_syncload_ops_length_pos (p : Platform) :
    0 < (stress_syncload_ops p).length := by
  rcases p with ⟨hp, hy, hx⟩
  cases hp <;> cases hy <;> cases hx <;> simp [stress_syncload_ops]

lemma syncloadCycle_opIdx (ops : List SyncloadOp) (mssleep : Nat) (b sl : ℚ)
    (e : CycleEnv) (s : SyncState) :
    (syncloadCycle ops mssleep b sl e s).opIdx = s.delay_type := by
  by_cases hf : e.keepFlag = true
  · rw [syncloadCycle_keepFlag_true ops mssleep b sl e s hf]
  · rw [syncloadCycle_keepFlag_false ops mssleep b sl e s (by simpa using hf)]

lemma syncloadCycle_opUsed (ops : List SyncloadOp) (mssleep : Nat) (b sl : ℚ)
    (e : CycleEnv) (s : SyncState) :
    (syncloadCycle ops mssleep b sl e s).opUsed =
      ops.getD s.delay_type SyncloadOp.opNone := by
  by_cases hf : e.keepFlag = true
  · rw [syncloadCycle_keepFlag_true ops mssleep b sl e s hf]
  · rw [syncloadCycle_keepFlag_false ops mssleep b sl e s (by simpa using hf)]

lemma syncloadCycle_state_delay_type (ops : List SyncloadOp) (mssleep : Nat)
    (b sl : ℚ) (e : CycleEnv) (s : SyncState) :
    (syncloadCycle ops mssleep b sl e s).state.delay_type =
      advance_delay_type ops.length s.delay_type := by
  by_cases hf : e.keepFlag = true
  · rw [syncloadCycle_keepFlag_true ops mssleep b sl e s hf]
  · rw [syncloadCycle_keepFlag_false ops mssleep b sl e s (by simpa using hf)]

lemma syncloadRun_trace_inbounds (ops : List SyncloadOp) (mssleep : Nat)
    (b sl : ℚ) :
    ∀ (envs : List CycleEnv) (s : SyncState), s.delay_type < ops.length →
      ∀ r ∈ (syncloadRun ops mssleep b sl envs s).2,
        r.opIdx < ops.length ∧ r.opUsed = ops.getD r.opIdx SyncloadOp.opNone := by
  intro envs
  induction envs with
  | nil =>
    intro s _ r hr
    simp [syncloadRun] at hr
  | cons e rest ih =>
    intro s hd r hr
    have hfirst : (syncloadCycle ops mssleep b sl e s).opIdx < ops.length ∧
        (syncloadCycle ops mssleep b sl e s).opUsed =
          ops.getD (syncloadCycle ops mssleep b sl e s).opIdx SyncloadOp.opNone := by
      rw [syncloadCycle_opIdx, syncloadCycle_opUsed]
      exact ⟨hd, rfl⟩
    by_cases hstop : (syncloadCycle ops mssleep b sl e s).broke = true ∨
        e.keepEnd = false
    · rw [syncloadRun_cons_stop ops mssleep b sl e rest s hstop] at hr
      simp at hr
      rw [hr]
      exact hfirst
    · rw [not_or] at hstop
      have hb : (syncloadCycle ops mssleep b sl e s).broke = false := by
        simpa using hstop.1
      have hk : e.keepEnd = true := by
        simpa using hstop.2
      rw [syncloadRun_cons_continue ops mssleep b sl e rest s hb hk] at hr
      rcases List.mem_cons.mp hr with hr | hr
      · rw [hr]
        exact hfirst
      · refine ih (syncloadCycle ops mssleep b sl e s).state ?_ r hr
        rw [syncloadCycle_state_delay_type]
        exact advance_delay_type_lt ops.length s.delay_type
          (Nat.lt_of_le_of_lt (Nat.zero_le _) hd)

lemma syncloadRun_head (ops : List SyncloadOp) (mssleep : Nat) (b sl : ℚ)
    (e : CycleEnv) (rest : List CycleEnv) (s : SyncState) :
    (syncloadRun ops mssleep b sl (e :: rest) s).2.headD dummyCycleResult =
      syncloadCycle ops mssleep b sl e s := by
  by_cases hstop : (syncloadCycle ops mssleep b sl e s).broke = true ∨
      e.keepEnd = false
  · rw [syncloadRun_cons_stop ops mssleep b sl e rest s hstop]
    rfl
  · rw [not_or] at hstop
    have hb : (syncloadCycle ops mssleep b sl e s).broke = false := by
      simpa using hstop.1
    have hk : e.keepEnd = true := by
      simpa using hstop.2
    rw [syncloadRun_cons_continue ops mssleep b sl e rest s hb hk]
    rfl

/-- Claim C10 (status: confirmed).  The registry cursor recorded at every
array access lies strictly below the registry length, so indexing is always
in bounds, and the very first busy phase of every worker uses the first
registry entry, the literal no-op primitive. -/
theorem stress_syncload_delay_type_safe (p : Platform) (msbusy mssleep : Nat)
    (T0 : ℚ) (envs : List CycleEnv) :
    (∀ r ∈ (stress_syncload p (some msbusy) (some mssleep) T0 envs).2,
        r.opIdx < (stress_syncload_ops p).length ∧
        r.opUsed = (stress_syncload_ops p).getD r.opIdx SyncloadOp.opNone) ∧
    (envs ≠ [] →
      ((stress_syncload p (some msbusy) (some mssleep) T0 envs).2.headD
          dummyCycleResult).opIdx = 0 ∧
      ((stress_syncload p (some msbusy) (some mssleep) T0 envs).2.headD
          dummyCycleResult).opUsed = SyncloadOp.opNone) := by
  rw [stress_syncload_eq]
  constructor
  · exact syncloadRun_trace_inbounds (stress_syncload_ops p) mssleep
      ((msbusy : ℚ) / 1000) ((mssleep : ℚ) / 1000) envs
      { timeout := T0, delay_type := 0, counter := 0 }
      (stress_syncload_ops_length_pos p)
  · intro hne
    rcases envs with _ | ⟨e, rest⟩
    · exact absurd rfl hne
    · rw [syncloadRun_head, syncloadCycle_opIdx, syncloadCycle_opUsed]
      exact ⟨rfl, rfl⟩

/-- Witness for stress_syncload_delay_type_safe on a one-cycle run. -/
theorem stress_syncload_delay_type_safe_witness :
    ([envSimple] ≠ ([] : List CycleEnv)) ∧
    (((stress_syncload platformBase (some 125) (some 62) 0 [envSimple]).2.headD
        dummyCycleResult).opIdx = 0 ∧
     ((stress_syncload platformBase (some 125) (some 62) 0 [envSimple]).2.headD
        dummyCycleResult).opUsed = SyncloadOp.opNone) :=
  ⟨by simp,
   (stress_syncload_delay_type_safe platformBase 125 62 0 [envSimple]).2
     (by simp)⟩

lemma syncloadRun_trace_opIdx (ops : List SyncloadOp) (mssleep : Nat)
    (b sl : ℚ) :
    ∀ (envs : List CycleEnv) (s : SyncState),
      (∀ e ∈ envs, e.keepFlag = true) →
      (∀ e ∈ envs.dropLast, e.keepEnd = true) →
      s.delay_type < ops.length →
      ∀ i, i < envs.length →
        ((syncloadRun ops mssleep b sl envs s).2.getD i dummyCycleResult).opIdx
          = (s.delay_type + i) % ops.length := by
  intro envs
  induction envs with
  | nil =>
    intro s _ _ _ i hi
    simp at hi
  | cons e rest ih =>
    intro s hflag hlast hd i hi
    have he : e.keepFlag = true := hflag e (List.mem_cons_self e rest)
    have hcy := syncloadCycle_keepFlag_true ops mssleep b sl e s he
    have hbroke : (syncloadCycle ops mssleep b sl e s).broke = false := by
      rw [hcy]
    rcases rest with _ | ⟨f, rest2⟩
    · have hi0 : i = 0 := by
        simp at hi
        omega
      subst hi0
      by_cases hk : e.keepEnd = true
      · rw [syncloadRun_cons_continue ops mssleep b sl e [] s hbroke hk]
        simp [syncloadRun, syncloadCycle_opIdx, Nat.mod_eq_of_lt hd]
      · rw [syncloadRun_cons_stop ops mssleep b sl e [] s
            (Or.inr (by simpa using hk))]
        simp [syncloadCycle_opIdx, Nat.mod_eq_of_lt hd]
    · have hke : e.keepEnd = true := hlast e (by simp [List.dropLast])
      have hflag2 : ∀ x ∈ f :: rest2, x.keepFlag = true :=
        fun x hx => hflag x (List.mem_cons_of_mem e hx)
      have hlast2 : ∀ x ∈ (f :: rest2).dropLast, x.keepEnd = true := by
        intro x hx
        apply hlast x
        simp [List.dropLast] at hx ⊢
        exact Or.inr hx
      have hk0 : 0 < ops.length := Nat.lt_of_le_of_lt (Nat.zero_le _) hd
      have hd2 : (syncloadCycle ops mssleep b sl e s).state.delay_type
          < ops.length := by
        rw [syncloadCycle_state_delay_type]
        exact advance_delay_type_lt ops.length s.delay_type hk0
      rw [syncloadRun_cons_continue ops mssleep b sl e (f :: rest2) s hbroke hke]
      rcases i with _ | i
      · simp [syncloadCycle_opIdx, Nat.mod_eq_of_lt hd]
      · have hi2 : i < (f :: rest2).length := by
          simp at hi ⊢
          omega
        have hrec := ih (syncloadCycle ops mssleep b sl e s).state
          hflag2 hlast2 hd2 i hi2
        rw [syncloadCycle_state_delay_type,
            advance_delay_type_eq_mod ops.length s.delay_type hd] at hrec
        simp only [List.getD_cons_succ]
        rw [hrec, Nat.mod_add_mod]
        congr 1
        omega

/-- Claim C6 (status: confirmed).  Busy-op selection is round-robin over the
fixed registry: the primitive used in completed cycle i is the registry entry
at index i mod k where k is the registry length, so after k consecutive busy
phases selection returns to the first primitive. -/
theorem stress_syncload_round_robin (p : Platform) (msbusy mssleep : Nat)
    (T0 : ℚ) (envs : List CycleEnv)
    (hflag : ∀ e ∈ envs, e.keepFlag = true)
    (hlast : ∀ e ∈ envs.dropLast, e.keepEnd = true)
    (i : Nat) (hi : i < envs.length) :
    ((stress_syncload p (some msbusy) (some mssleep) T0 envs).2.getD i
        dummyCycleResult).opIdx = i % (stress_syncload_ops p).length ∧
    ((stress_syncload p (some msbusy) (some mssleep) T0 envs).2.getD i
        dummyCycleResult).opUsed =
      (stress_syncload_ops p).getD (i % (stress_syncload_ops p).length)
        SyncloadOp.opNone := by
  rw [stress_syncload_eq]
  have hidx := syncloadRun_trace_opIdx (stress_syncload_ops p) mssleep
      ((msbusy : ℚ) / 1000) ((mssleep : ℚ) / 1000) envs
      { timeout := T0, delay_type := 0, counter := 0 } hflag hlast
      (stress_syncload_ops_length_pos p) i hi
  obtain ⟨-, -, hlen⟩ := syncloadRun_complete (stress_syncload_ops p) mssleep
      ((msbusy : ℚ) / 1000) ((mssleep : ℚ) / 1000) envs
      { timeout := T0, delay_type := 0, counter := 0 } hflag hlast
  have hi2 : i < (syncloadRun (stress_syncload_ops p) mssleep
      ((msbusy : ℚ) / 1000) ((mssleep : ℚ) / 1000) envs
      { timeout := T0, delay_type := 0, counter := 0 }).2.length := by
    rw [hlen]
    exact hi
  have hmem : (syncloadRun (stress_syncload_ops p) mssleep
      ((msbusy : ℚ) / 1000) ((mssleep : ℚ) / 1000) envs
      { timeout := T0, delay_type := 0, counter := 0 }).2.getD i
        dummyCycleResult ∈ (syncloadRun (stress_syncload_ops p) mssleep
      ((msbusy : ℚ) / 1000) ((mssleep : ℚ) / 1000) envs
      { timeout := T0, delay_type := 0, counter := 0 }).2 := by
    rw [List.getD_eq_getElem _ _ hi2]
    exact List.getElem_mem hi2
  have hrel := (syncloadRun_trace_inbounds (stress_syncload_ops p) mssleep
      ((msbusy : ℚ) / 1000) ((mssleep : ℚ) / 1000) envs
      { timeout := T0, delay_type := 0, counter := 0 }
      (stress_syncload_ops_length_pos p) _ hmem).2
  constructor
  · rw [hidx]
    simp
  · rw [hrel, hidx]
    simp

/-- Seven identical completed cycles for the round-robin witness. -/
def envsSeven : List CycleEnv := List.replicate 7 envSimple

/-- Witness for stress_syncload_round_robin: with the five-entry base
registry, cycle 6 uses the entry at index 6 mod 5 = 1. -/
theorem stress_syncload_round_robin_witness :
    ((stress_syncload platformBase (some 1) (some 1) 0 envsSeven).2.getD 6
        dummyCycleResult).opIdx = 6 % (stress_syncload_ops platformBase).length ∧
    ((stress_syncload platformBase (some 1) (some 1) 0 envsSeven).2.getD 6
        dummyCycleResult).opUsed =
      (stress_syncload_ops platformBase).getD
        (6 % (stress_syncload_ops platformBase).length) SyncloadOp.opNone :=
  stress_syncload_round_robin platformBase 1 1 0 envsSeven
    (by decide) (by decide) 6 (by decide)

lemma syncloadCycle_timeout_lt (ops : List SyncloadOp) (mssleep : Nat)
    (b sl : ℚ) (hb : 0 < b) (hsl : 0 < sl) (e : CycleEnv) (s : SyncState) :
    s.timeout < (syncloadCycle ops mssleep b sl e s).state.timeout := by
  have j1 := stress_syncload_jitter_nonneg e.rbusy b (le_of_lt hb)
  have j2 := stress_syncload_jitter_nonneg e.rsleep sl (le_of_lt hsl)
  by_cases hf : e.keepFlag = true
  · rw [syncloadCycle_keepFlag_true ops mssleep b sl e s hf]
    simp only []
    linarith
  · rw [syncloadCycle_keepFlag_false ops mssleep b sl e s (by simpa using hf)]
    simp only []
    linarith

lemma syncloadRun_timeout_le (ops : List SyncloadOp) (mssleep : Nat)
    (b sl : ℚ) (hb : 0 < b) (hsl : 0 < sl) :
    ∀ (envs : List CycleEnv) (s : SyncState),
      s.timeout ≤ (syncloadRun ops mssleep b sl envs s).1.timeout := by
  intro envs
  induction envs with
  | nil => intro s; simp [syncloadRun]
  | cons e rest ih =>
    intro s
    have hc := syncloadCycle_timeout_lt ops mssleep b sl hb hsl e s
    by_cases hstop : (syncloadCycle ops mssleep b sl e s).broke = true ∨
        e.keepEnd = false
    · rw [syncloadRun_cons_stop ops mssleep b sl e rest s hstop]
      exact le_of_lt hc
    · rw [not_or] at hstop
      rw [syncloadRun_cons_continue ops mssleep b sl e rest s
          (by simpa using hstop.1) (by simpa using hstop.2)]
      exact le_trans (le_of_lt hc)
        (ih (syncloadCycle ops mssleep b sl e s).state)

lemma syncloadRun_cons_timeout_lt (ops : List SyncloadOp) (mssleep : Nat)
    (b sl : ℚ) (hb : 0 < b) (hsl : 0 < sl) (e : CycleEnv)
    (rest : List CycleEnv) (s : SyncState) :
    s.timeout < (syncloadRun ops mssleep b sl (e :: rest) s).1.timeout := by
  have hc := syncloadCycle_timeout_lt ops mssleep b sl hb hsl e s
  by_cases hstop : (syncloadCycle ops mssleep b sl e s).broke = true ∨
      e.keepEnd = false
  · rw [syncloadRun_cons_stop ops mssleep b sl e rest s hstop]
    exact hc
  · rw [not_or] at hstop
    rw [syncloadRun_cons_continue ops mssleep b sl e rest s
        (by simpa using hstop.1) (by simpa using hstop.2)]
    exact lt_of_lt_of_le hc
      (syncloadRun_timeout_le ops mssleep b sl hb hsl rest
        (syncloadCycle ops mssleep b sl e s).state)

/-- Claim C9 (status: confirmed).  For every valid configuration, at least
STRESS_SYNCLOAD_MS_MIN milliseconds for both phases, the busy-phase timeout
update and the sleep-phase timeout update each strictly increase the timeout
accumulator, one whole cycle strictly increases it, and over any nonempty
run the final timeout is strictly above the seed T0. -/
theorem stress_syncload_timeout_strictly_increases (p : Platform)
    (msbusy mssleep : Nat)
    (h1 : STRESS_SYNCLOAD_MS_MIN ≤ msbusy)
    (h2 : STRESS_SYNCLOAD_MS_MIN ≤ mssleep)
    (ops : List SyncloadOp) (e : CycleEnv) (s : SyncState)
    (T0 : ℚ) (envs : List CycleEnv) (hne : envs ≠ []) :
    s.timeout < s.timeout + (msbusy : ℚ) / 1000
        + stress_syncload_jitter e.rbusy ((msbusy : ℚ) / 1000) ∧
    s.timeout + (msbusy : ℚ) / 1000
        + stress_syncload_jitter e.rbusy ((msbusy : ℚ) / 1000)
      < s.timeout + (msbusy : ℚ) / 1000
        + stress_syncload_jitter e.rbusy ((msbusy : ℚ) / 1000)
        + (mssleep : ℚ) / 1000
        + stress_syncload_jitter e.rsleep ((mssleep : ℚ) / 1000) ∧
    s.timeout < (syncloadCycle ops mssleep ((msbusy : ℚ) / 1000)
        ((mssleep : ℚ) / 1000) e s).state.timeout ∧
    T0 < (stress_syncload p (some msbusy) (some mssleep) T0 envs).1.timeout := by
  have h1n : 1 ≤ msbusy := h1
  have h2n : 1 ≤ mssleep := h2
  have hb1 : (1 : ℚ) ≤ (msbusy : ℚ) := by exact_mod_cast h1n
  have hs1 : (1 : ℚ) ≤ (mssleep : ℚ) := by exact_mod_cast h2n
  have hb : (0 : ℚ) < (msbusy : ℚ) / 1000 := by
    apply div_pos (by linarith) (by norm_num)
  have hsl : (0 : ℚ) < (mssleep : ℚ) / 1000 := by
    apply div_pos (by linarith) (by norm_num)
  have j1 := stress_syncload_jitter_nonneg e.rbusy ((msbusy : ℚ) / 1000)
    (le_of_lt hb)
  have j2 := stress_syncload_jitter_nonneg e.rsleep ((mssleep : ℚ) / 1000)
    (le_of_lt hsl)
  refine ⟨by linarith, by linarith, ?_, ?_⟩
  · exact syncloadCycle_timeout_lt ops mssleep _ _ hb hsl e s
  · rcases envs with _ | ⟨e0, rest⟩
    · exact absurd rfl hne
    · rw [stress_syncload_eq]
      exact syncloadRun_cons_timeout_lt (stress_syncload_ops p) mssleep
        ((msbusy : ℚ) / 1000) ((mssleep : ℚ) / 1000) hb hsl e0 rest
        { timeout := T0, delay_type := 0, counter := 0 }

/-- Witness for stress_syncload_timeout_strictly_increases at the default
configuration and a one-cycle run. -/
theorem stress_syncload_timeout_strictly_increases_witness :
    ((0 : ℚ) < 0 + ((125 : Nat) : ℚ) / 1000
        + stress_syncload_jitter envSimple.rbusy (((125 : Nat) : ℚ) / 1000)) ∧
    ((0 : ℚ) + ((125 : Nat) : ℚ) / 1000
        + stress_syncload_jitter envSimple.rbusy (((125 : Nat) : ℚ) / 1000)
      < 0 + ((125 : Nat) : ℚ) / 1000
        + stress_syncload_jitter envSimple.rbusy (((125 : Nat) : ℚ) / 1000)
        + ((62 : Nat) : ℚ) / 1000
        + stress_syncload_jitter envSimple.rsleep (((62 : Nat) : ℚ) / 1000)) ∧
    ((0 : ℚ) < (syncloadCycle [] 62 (((125 : Nat) : ℚ) / 1000)
        (((62 : Nat) : ℚ) / 1000) envSimple
        { timeout := 0, delay_type := 0, counter := 0 }).state.timeout) ∧
    ((0 : ℚ) < (stress_syncload platformBase (some 125) (some 62) 0
        [envSimple]).1.timeout) :=
  stress_syncload_timeout_strictly_increases platformBase 125 62
    (by decide) (by decide) [] envSimple
    { timeout := 0, delay_type := 0, counter := 0 } 0 [envSimple] (by simp)

lemma gettime_some_inv (obs : Nat → ℚ) (keep : Nat → Bool) :
    ∀ (fuel i : Nat) (j : Nat) (t : ℚ),
      stress_syncload_gettime obs keep i fuel = some (j, t) →
      t = obs j ∧ (0 < t ∨ keep j = false) := by
  intro fuel
  induction fuel with
  | zero =>
    intro i j t h
    simp [stress_syncload_gettime] at h
  | succ fuel ih =>
    intro i j t h
    simp only [stress_syncload_gettime] at h
    by_cases hc : obs i ≤ 0 ∧ keep i = true
    · rw [if_pos hc] at h
      exact ih (i + 1) j t h
    · rw [if_neg hc] at h
      simp at h
      obtain ⟨hj, ht⟩ := h
      subst hj
      refine ⟨ht.symm, ?_⟩
      rw [not_and_or] at hc
      rcases hc with hc | hc
      · left
        rw [← ht]
        exact lt_of_not_le hc
      · right
        rw [← ht] at *
        simpa using hc

lemma gettime_stop_terminates (obs : Nat → ℚ) (keep : Nat → Bool) :
    ∀ (n i : Nat), keep (i + n) = false →
      stress_syncload_gettime obs keep i (n + 1) ≠ none := by
  intro n
  induction n with
  | zero =>
    intro i h
    have hki : keep i = false := by simpa using h
    have hc : ¬(obs i ≤ 0 ∧ keep i = true) := by
      intro hcc
      rw [hki] at hcc
      simp at hcc
    simp only [stress_syncload_gettime]
    rw [if_neg hc]
    simp
  | succ n ih =>
    intro i h
    simp only [stress_syncload_gettime]
    by_cases hc : obs i ≤ 0 ∧ keep i = true
    · rw [if_pos hc]
      refine ih (i + 1) ?_
      have : i + 1 + n = i + (n + 1) := by omega
      rw [this]
      exact h
    · rw [if_neg hc]
      simp

/-- Claim C8 (status: confirmed).  The reference-time getter loops only while
the observed value is non-positive and the keep-running predicate holds:
whenever it returns an observation, that value is strictly positive or the
predicate was false at that iteration, and as soon as the predicate goes
false at some iteration the getter returns within that many further
iterations even if the timestamp is never published. -/
theorem stress_syncload_gettime_stop (obs : Nat → ℚ) (keep : Nat → Bool)
    (i fuel n : Nat) (j : Nat) (t : ℚ) :
    (stress_syncload_gettime obs keep i fuel = some (j, t) →
      t = obs j ∧ (0 < t ∨ keep j = false)) ∧
    (keep (i + n) = false →
      stress_syncload_gettime obs keep i (n + 1) ≠ none) :=
  ⟨gettime_some_inv obs keep fuel i j t, gettime_stop_terminates obs keep n i⟩

/-- Witness for stress_syncload_gettime_stop with a never-published timestamp
and a stop request already asserted. -/
theorem stress_syncload_gettime_stop_witness :
    ((stress_syncload_gettime (fun _ => (0 : ℚ)) (fun _ => false) 0 1 =
        some (0, 0) →
      (0 : ℚ) = 0 ∧ ((0 : ℚ) < 0 ∨ false = false)) ∧
     (false = false →
      stress_syncload_gettime (fun _ => (0 : ℚ)) (fun _ => false) 0 (0 + 1) ≠
        none)) :=
  stress_syncload_gettime_stop (fun _ => (0 : ℚ)) (fun _ => false) 0 1 0 0 0
